import Mathlib

/-!
Verification development for the EMA/RSI signal-generation and backtesting
engine specified for this trading-dashboard repository.

The repository's visual layer (src/src/components/...) fakes its numbers
with `Math.random()`; the engine itself (indicator calculator, signal
generator, risk manager, backtest runner, performance analyzer) exists only
as the specification.  Definitions below therefore come in two groups:

* embeddings of the computations that do exist in the source files
  (confidence formula, RSI clamps, chart-window truncation, win-rate and
  max-drawdown statistics over sample data), translated line by line from
  the TypeScript; rationals stand for JS numbers, `Option` for NaN-producing
  operations, `Int.floor (x + 1/2)` for `Math.round`;
* models of the engine components missing from the source, each marked
  `Modelled from the spec:` in its doc comment.
-/

namespace TradingEngine

/-- JS `Math.round`: rounds half toward positive infinity. -/
def jsRound (x : ℚ) : ℤ := ⌊x + 1/2⌋

/-- JS division returning `none` for the NaN/Infinity cases (denominator 0). -/
def jsDiv (a b : ℚ) : Option ℚ := if b = 0 then none else some (a / b)

/-- JS `Math.min(...list)`: `none` models the `Infinity` result on an empty list. -/
def jsMin (l : List ℚ) : Option ℚ :=
  l.foldr (fun x acc => match acc with | none => some x | some y => some (min x y)) none

/-- JS `Math.max(0, Math.min(100, x))`, the clamp to [0, 100] used throughout the UI. -/
def clamp100 (x : ℚ) : ℚ := max 0 (min 100 x)

/-! ## Indicator Calculator (modelled from the spec) -/

/-- Modelled from the spec: `computeEMA(bars, period)` is missing from src/
(the chart fakes `ema_short`/`ema_long` as price plus random noise).
Per spec 4.1: seed value = simple average of the first `period` closes; each
subsequent value = `close * k + previous * (1 - k)` with `k = 2/(period+1)`;
one value per bar from index `period-1` onward, nothing earlier.  An input
shorter than the warm-up (or a zero period) yields no output, standing for
`InsufficientDataError`. -/
def computeEMA (closes : List ℚ) (period : ℕ) : List ℚ :=
  if closes.length < period ∨ period = 0 then []
  else
    let k : ℚ := 2 / (period + 1)
    let seed : ℚ := (closes.take period).sum / period
    List.scanl (fun prev c => c * k + prev * (1 - k)) seed (closes.drop period)

/-- Claim C4: for every series of `n` bars and valid period `p ≤ n`, `computeEMA`
produces exactly `n − p + 1` values and its first value is the simple average
of the first `p` closes. -/
theorem computeEMA_length_and_seed (closes : List ℚ) (p : ℕ)
    (hp : 1 ≤ p) (hlen : p ≤ closes.length) :
    (computeEMA closes p).length = closes.length - p + 1 ∧
    (computeEMA closes p).head? = some ((closes.take p).sum / p) := by
  have hguard : ¬ (closes.length < p ∨ p = 0) := by
    push_neg
    exact ⟨hlen, by omega⟩
  constructor
  · simp only [computeEMA, if_neg hguard]
    rw [List.length_scanl, List.length_drop]
  · simp only [computeEMA, if_neg hguard]
    cases h : closes.drop p with
    | nil => simp [List.scanl]
    | cons a l => simp [List.scanl]

/-- Witness for C4 on a concrete input: `computeEMA [1,2,3,4] 2` has
`4 − 2 + 1 = 3` values and starts with `(1+2)/2`. -/
theorem computeEMA_length_and_seed_witness :
    1 ≤ 2 ∧ 2 ≤ ([1, 2, 3, 4] : List ℚ).length ∧
    ((computeEMA [1, 2, 3, 4] 2).length = ([1, 2, 3, 4] : List ℚ).length - 2 + 1 ∧
     (computeEMA [1, 2, 3, 4] 2).head? = some ((([1, 2, 3, 4] : List ℚ).take 2).sum / 2)) :=
  ⟨by norm_num, by norm_num,
   computeEMA_length_and_seed [1, 2, 3, 4] 2 (by norm_num) (by norm_num)⟩

/-- Modelled from the spec: per-bar gain components for Wilder's RSI, missing
from src/.  Per spec 4.1 the change `close[i] − close[i−1]` is split into a
positive (gain) component. -/
def gains (closes : List ℚ) : List ℚ :=
  List.zipWith (fun a b => max (b - a) 0) closes closes.tail

/-- Modelled from the spec: per-bar negative-magnitude (loss) components for
Wilder's RSI, missing from src/. -/
def losses (closes : List ℚ) : List ℚ :=
  List.zipWith (fun a b => max (a - b) 0) closes closes.tail

/-- Modelled from the spec: Wilder's smoothing step on the (avgGain, avgLoss)
pair: `(prevAvg * (period − 1) + current) / period`. -/
def wilderStep (period : ℕ) (avg gl : ℚ × ℚ) : ℚ × ℚ :=
  ((avg.1 * ((period : ℚ) - 1) + gl.1) / period,
   (avg.2 * ((period : ℚ) - 1) + gl.2) / period)

/-- Modelled from the spec: `RSI = 100 − 100 / (1 + avgGain/avgLoss)`, with the
spec's explicit edge values: RSI = 100 when `avgLoss = 0`, RSI = 0 when
`avgGain = 0`. -/
def rsiOf (avg : ℚ × ℚ) : ℚ :=
  if avg.2 = 0 then 100 else if avg.1 = 0 then 0 else 100 - 100 / (1 + avg.1 / avg.2)

/-- Modelled from the spec: the running (avgGain, avgLoss) pairs, seeded with
the simple means of the first `period` gain/loss values and folded with
Wilder's smoothing over the remaining ones. -/
def rsiAvgs (closes : List ℚ) (period : ℕ) : List (ℚ × ℚ) :=
  List.scanl (wilderStep period)
    (((gains closes).take period).sum / period, ((losses closes).take period).sum / period)
    (((gains closes).drop period).zip ((losses closes).drop period))

/-- Modelled from the spec: `computeRSI(bars, period)` is missing from src/
(the chart fakes RSI as a clamped random walk).  An input shorter than
`period + 1` bars (or a zero period) yields no output, standing for
`InsufficientDataError`. -/
def computeRSI (closes : List ℚ) (period : ℕ) : List ℚ :=
  if closes.length < period + 1 ∨ period = 0 then []
  else (rsiAvgs closes period).map rsiOf

/-- RSI value pushed by the chart's sample-data generator (part_000 lines
72/79): `Math.max(0, Math.min(100, 50 + (r − 0.5) * 60))` with `r` the
`Math.random()` sample, stored after `Math.round(rsi * 10) / 10`. -/
def tcSampleRsi (r : ℚ) : ℚ := (jsRound (clamp100 (50 + (r - 1/2) * 60) * 10) : ℚ) / 10

/-- RSI value pushed by the chart's real-time tick (part_000 line 148):
`Math.max(0, Math.min(100, lastData.rsi + (Math.random() − 0.5) * 10))`. -/
def tcUpdateRsi (prev r : ℚ) : ℚ := clamp100 (prev + (r - 1/2) * 10)

theorem clamp100_bounds (x : ℚ) : 0 ≤ clamp100 x ∧ clamp100 x ≤ 100 := by
  unfold clamp100
  exact ⟨le_max_left 0 _, max_le (by norm_num) (min_le_left _ _)⟩

theorem jsRound_div10_bounds (x : ℚ) (h0 : 0 ≤ x) (h100 : x ≤ 100) :
    0 ≤ (jsRound (x * 10) : ℚ) / 10 ∧ (jsRound (x * 10) : ℚ) / 10 ≤ 100 := by
  unfold jsRound
  have hlow : (0 : ℤ) ≤ ⌊x * 10 + 1/2⌋ := Int.floor_nonneg.mpr (by linarith)
  have hhigh : ⌊x * 10 + 1/2⌋ ≤ 1000 := by
    have h : ⌊x * 10 + 1/2⌋ < 1001 := Int.floor_lt.mpr (by push_cast; linarith)
    omega
  constructor
  · exact div_nonneg (by exact_mod_cast hlow) (by norm_num)
  · rw [div_le_iff₀ (by norm_num)]
    calc ((⌊x * 10 + 1/2⌋ : ℤ) : ℚ) ≤ (1000 : ℤ) := by exact_mod_cast hhigh
      _ = 100 * 10 := by norm_num

theorem scanl_invariant {α β : Type} (f : β → α → β) (P : β → Prop) :
    ∀ (l : List α) (b : β), P b → (∀ acc a, P acc → a ∈ l → P (f acc a)) →
    ∀ y ∈ List.scanl f b l, P y := by
  intro l
  induction l with
  | nil =>
    intro b hb _ y hy
    rw [List.scanl_nil, List.mem_singleton] at hy
    exact hy ▸ hb
  | cons a l ih =>
    intro b hb hstep y hy
    rw [List.scanl_cons] at hy
    rcases List.mem_cons.mp hy with h | h
    · exact h ▸ hb
    · exact ih (f b a) (hstep b a hb (List.mem_cons_self a l))
        (fun acc x hacc hx => hstep acc x hacc (List.mem_cons_of_mem a hx)) y h

theorem nonneg_of_mem_zipWith_max (f : ℚ → ℚ → ℚ) :
    ∀ (l₁ l₂ : List ℚ) (x : ℚ), x ∈ List.zipWith (fun a b => max (f a b) 0) l₁ l₂ → 0 ≤ x := by
  intro l₁
  induction l₁ with
  | nil => intro l₂ x hx; simp at hx
  | cons a l ih =>
    intro l₂ x hx
    cases l₂ with
    | nil => simp at hx
    | cons b l₂ =>
      rw [List.zipWith_cons_cons] at hx
      rcases List.mem_cons.mp hx with h | h
      · rw [h]; exact le_max_right _ _
      · exact ih l₂ x h

theorem gains_nonneg (closes : List ℚ) (x : ℚ) (hx : x ∈ gains closes) : 0 ≤ x := by
  unfold gains at hx
  exact nonneg_of_mem_zipWith_max (fun a b => b - a) closes closes.tail x hx

theorem losses_nonneg (closes : List ℚ) (x : ℚ) (hx : x ∈ losses closes) : 0 ≤ x := by
  unfold losses at hx
  exact nonneg_of_mem_zipWith_max (fun a b => a - b) closes closes.tail x hx

theorem wilderStep_nonneg (p : ℕ) (hp : 1 ≤ p) (avg gl : ℚ × ℚ)
    (ha : 0 ≤ avg.1 ∧ 0 ≤ avg.2) (hg : 0 ≤ gl.1 ∧ 0 ≤ gl.2) :
    0 ≤ (wilderStep p avg gl).1 ∧ 0 ≤ (wilderStep p avg gl).2 := by
  have hp0 : (0 : ℚ) ≤ (p : ℚ) := by positivity
  have hp1 : (0 : ℚ) ≤ (p : ℚ) - 1 := by
    have h : (1 : ℚ) ≤ (p : ℚ) := by exact_mod_cast hp
    linarith
  exact ⟨div_nonneg (add_nonneg (mul_nonneg ha.1 hp1) hg.1) hp0,
         div_nonneg (add_nonneg (mul_nonneg ha.2 hp1) hg.2) hp0⟩

theorem rsiOf_bounds (avg : ℚ × ℚ) (h1 : 0 ≤ avg.1) (h2 : 0 ≤ avg.2) :
    0 ≤ rsiOf avg ∧ rsiOf avg ≤ 100 := by
  unfold rsiOf
  split_ifs with hl hg
  · norm_num
  · norm_num
  · have hgpos : 0 < avg.1 := lt_of_le_of_ne h1 (Ne.symm hg)
    have hlpos : 0 < avg.2 := lt_of_le_of_ne h2 (Ne.symm hl)
    have hrs : 0 < avg.1 / avg.2 := div_pos hgpos hlpos
    have hq1 : 0 < 100 / (1 + avg.1 / avg.2) := by positivity
    have hq2 : 100 / (1 + avg.1 / avg.2) < 100 := by
      rw [div_lt_iff₀ (by linarith)]
      nlinarith
    constructor <;> linarith

/-- Claim C5: every RSI value the program produces lies in [0, 100]: the
chart's clamped-and-rounded sample value, the clamped incremental real-time
update (for an arbitrary, even out-of-range, previous value), and every point
of the spec-modelled Wilder `computeRSI` series. -/
theorem rsi_always_in_range (r prev : ℚ) (closes : List ℚ) (p : ℕ) (v : ℚ)
    (hv : v ∈ computeRSI closes p) :
    (0 ≤ tcSampleRsi r ∧ tcSampleRsi r ≤ 100) ∧
    (0 ≤ tcUpdateRsi prev r ∧ tcUpdateRsi prev r ≤ 100) ∧
    (0 ≤ v ∧ v ≤ 100) := by
  refine ⟨?_, clamp100_bounds _, ?_⟩
  · exact jsRound_div10_bounds _ (clamp100_bounds _).1 (clamp100_bounds _).2
  · unfold computeRSI at hv
    split_ifs at hv with hguard
    · simp at hv
    · push_neg at hguard
      have hp1 : 1 ≤ p := Nat.one_le_iff_ne_zero.mpr hguard.2
      rw [List.mem_map] at hv
      obtain ⟨avg, havg, hrsi⟩ := hv
      have hP : 0 ≤ avg.1 ∧ 0 ≤ avg.2 := by
        refine scanl_invariant _ (fun b => 0 ≤ b.1 ∧ 0 ≤ b.2) _ _ ⟨?_, ?_⟩ ?_ avg havg
        · apply div_nonneg _ (by positivity)
          apply List.sum_nonneg
          intro x hx
          exact gains_nonneg closes x (List.take_subset _ _ hx)
        · apply div_nonneg _ (by positivity)
          apply List.sum_nonneg
          intro x hx
          exact losses_nonneg closes x (List.take_subset _ _ hx)
        · intro acc a hacc ha
          obtain ⟨x, y⟩ := a
          have hmem := List.of_mem_zip ha
          exact wilderStep_nonneg p hp1 acc (x, y) hacc
            ⟨gains_nonneg closes x (List.drop_subset _ _ hmem.1),
             losses_nonneg closes y (List.drop_subset _ _ hmem.2)⟩
      exact hrsi ▸ rsiOf_bounds avg hP.1 hP.2

/-- Witness for C5 at concrete inputs: the value 100 produced by
`computeRSI [1,2,3] 2` (all-gain series, `avgLoss = 0`), the sample value at
`r = 1/2`, and the incremental update from an out-of-range previous RSI of
200, all lie in [0, 100]. -/
theorem rsi_always_in_range_witness :
    (100 : ℚ) ∈ computeRSI [1, 2, 3] 2 ∧
    ((0 ≤ tcSampleRsi (1/2) ∧ tcSampleRsi (1/2) ≤ 100) ∧
     (0 ≤ tcUpdateRsi 200 (1/2) ∧ tcUpdateRsi 200 (1/2) ≤ 100) ∧
     (0 ≤ (100 : ℚ) ∧ (100 : ℚ) ≤ 100)) :=
  ⟨by norm_num [computeRSI, rsiAvgs, gains, losses, wilderStep, rsiOf, List.scanl],
   rsi_always_in_range (1/2) 200 [1, 2, 3] 2 100
     (by norm_num [computeRSI, rsiAvgs, gains, losses, wilderStep, rsiOf, List.scanl])⟩

/-! ## Signal Generator (modelled from the spec) -/

inductive Direction where
  | buy
  | sell
deriving DecidableEq

inductive Strength where
  | weak
  | moderate
  | strong
deriving DecidableEq

/-- Modelled from the spec: an IndicatorPoint (timestamp, emaShort, emaLong,
rsi), one per bar once warm-up completes.  The engine producing it is missing
from src/. -/
structure IPoint where
  ts : ℤ
  emaShort : ℚ
  emaLong : ℚ
  rsi : ℚ
deriving DecidableEq

/-- Modelled from the spec: crossover detection between the previous and the
current IndicatorPoint: `buy` when `emaShort` transitions from ≤ `emaLong` to
> `emaLong` on this bar, `sell` on the opposite transition, nothing
otherwise. -/
def detectCross (p c : IPoint) : Option Direction :=
  if p.emaShort ≤ p.emaLong ∧ c.emaLong < c.emaShort then some Direction.buy
  else if p.emaLong < p.emaShort ∧ c.emaShort ≤ c.emaLong then some Direction.sell
  else none

/-- Modelled from the spec: the event-driven scan emitting, for each bar at
which a crossover occurs, one (bar index, direction) event; bars without a
crossover emit nothing.  `i` is the index of the first point of the remaining
list. -/
def crossEventsAux (i : ℕ) : List IPoint → List (ℕ × Direction)
  | p :: c :: rest =>
      (match detectCross p c with
       | some d => [(i + 1, d)]
       | none => []) ++ crossEventsAux (i + 1) (c :: rest)
  | _ => []

/-- Modelled from the spec: the Signal Generator's emission schedule over a
whole indicator series (index 0 is the first point). -/
def crossSignals (pts : List IPoint) : List (ℕ × Direction) := crossEventsAux 0 pts

theorem detectCross_eq_buy (p c : IPoint) :
    detectCross p c = some Direction.buy ↔
      (p.emaShort ≤ p.emaLong ∧ c.emaLong < c.emaShort) := by
  unfold detectCross
  split_ifs with h1 h2 <;> simp [h1]

theorem detectCross_eq_sell (p c : IPoint) :
    detectCross p c = some Direction.sell ↔
      (p.emaLong < p.emaShort ∧ c.emaShort ≤ c.emaLong) := by
  unfold detectCross
  split_ifs with h1 h2
  · constructor
    · intro h; simp at h
    · rintro ⟨ha, hb⟩
      exact absurd h1.1 (not_le.mpr ha)
  · simp [h2]
  · simp [h2]

theorem crossEventsAux_mem (d : Direction) :
    ∀ (l : List IPoint) (s j : ℕ),
    ((j, d) ∈ crossEventsAux s l ↔
      ∃ k p c, l.get? k = some p ∧ l.get? (k + 1) = some c ∧
        j = s + k + 1 ∧ detectCross p c = some d) := by
  intro l
  induction l with
  | nil =>
    intro s j
    simp [crossEventsAux]
  | cons p rest ih =>
    intro s j
    cases rest with
    | nil =>
      simp [crossEventsAux]
    | cons c rest2 =>
      have hunfold : crossEventsAux s (p :: c :: rest2) =
          (match detectCross p c with
           | some d0 => [(s + 1, d0)]
           | none => []) ++ crossEventsAux (s + 1) (c :: rest2) := rfl
      rw [hunfold]
      constructor
      · intro h
        rcases List.mem_append.mp h with h1 | h2
        · rcases hd : detectCross p c with _ | d0
          · rw [hd] at h1; simp at h1
          · rw [hd] at h1
            simp only [List.mem_singleton, Prod.mk.injEq] at h1
            exact ⟨0, p, c, rfl, rfl, by omega, by rw [hd, h1.2]⟩
        · obtain ⟨k, p', c', h1', h2', hj, hdet⟩ := (ih (s + 1) j).mp h2
          exact ⟨k + 1, p', c', by simpa using h1', by simpa using h2', by omega, hdet⟩
      · rintro ⟨k, p', c', h1', h2', hj, hdet⟩
        apply List.mem_append.mpr
        cases k with
        | zero =>
          left
          simp only [List.get?_cons_zero, Option.some.injEq] at h1'
          simp only [List.get?_cons_succ, List.get?_cons_zero, Option.some.injEq] at h2'
          rw [← h1', ← h2'] at hdet
          rw [hdet]
          simp only [List.mem_singleton, Prod.mk.injEq]
          exact ⟨by omega, trivial⟩
        | succ k2 =>
          right
          apply (ih (s + 1) j).mpr
          exact ⟨k2, p', c', by simpa using h1', by simpa using h2', by omega, hdet⟩

/-- Claim C3: over any indicator series, a `buy` event is emitted for bar `i`
exactly when `emaShort ≤ emaLong` at bar `i−1` and `emaShort > emaLong` at bar
`i`, and a `sell` event exactly on the opposite transition; consequently a bar
with no crossover gets no event at all. -/
theorem crossSignals_characterization (pts : List IPoint) (i : ℕ) :
    ((i, Direction.buy) ∈ crossSignals pts ↔
      (1 ≤ i ∧ ∃ p c, pts.get? (i - 1) = some p ∧ pts.get? i = some c ∧
        p.emaShort ≤ p.emaLong ∧ c.emaLong < c.emaShort)) ∧
    ((i, Direction.sell) ∈ crossSignals pts ↔
      (1 ≤ i ∧ ∃ p c, pts.get? (i - 1) = some p ∧ pts.get? i = some c ∧
        p.emaLong < p.emaShort ∧ c.emaShort ≤ c.emaLong)) := by
  constructor
  · rw [crossSignals, crossEventsAux_mem]
    constructor
    · rintro ⟨k, p, c, h1, h2, hj, hdet⟩
      refine ⟨by omega, p, c, ?_, ?_, (detectCross_eq_buy p c).mp hdet⟩
      · rw [show i - 1 = k by omega]; exact h1
      · rw [show i = k + 1 by omega]; exact h2
    · rintro ⟨hi, p, c, h1, h2, hcond1, hcond2⟩
      refine ⟨i - 1, p, c, h1, ?_, by omega, (detectCross_eq_buy p c).mpr ⟨hcond1, hcond2⟩⟩
      rw [show i - 1 + 1 = i by omega]; exact h2
  · rw [crossSignals, crossEventsAux_mem]
    constructor
    · rintro ⟨k, p, c, h1, h2, hj, hdet⟩
      refine ⟨by omega, p, c, ?_, ?_, (detectCross_eq_sell p c).mp hdet⟩
      · rw [show i - 1 = k by omega]; exact h1
      · rw [show i = k + 1 by omega]; exact h2
    · rintro ⟨hi, p, c, h1, h2, hcond1, hcond2⟩
      refine ⟨i - 1, p, c, h1, ?_, by omega, (detectCross_eq_sell p c).mpr ⟨hcond1, hcond2⟩⟩
      rw [show i - 1 + 1 = i by omega]; exact h2

/-! ## Strategy configuration and risk manager (modelled from the spec) -/

/-- Modelled from the spec: the StrategyConfig value object (spec 3); field
defaults in the source are `DEFAULT_SETTINGS` of TradingParams.tsx. -/
structure StrategyConfig where
  emaShortPeriod : ℕ
  emaLongPeriod : ℕ
  rsiPeriod : ℕ
  rsiOverbought : ℚ
  rsiOversold : ℚ
  minConfidence : ℚ
  tradeAmountPercent : ℚ
  stopLossPercent : ℚ
  takeProfitPercent : ℚ
  minTimeBetweenTrades : ℤ
  maxTradeAmount : Option ℚ
deriving DecidableEq

/-- The `DEFAULT_SETTINGS` object of TradingParams.tsx lines 47-60. -/
def defaultConfig : StrategyConfig :=
  { emaShortPeriod := 12, emaLongPeriod := 26, rsiPeriod := 14,
    rsiOverbought := 70, rsiOversold := 30, minConfidence := 70,
    tradeAmountPercent := 2, stopLossPercent := 2, takeProfitPercent := 4,
    minTimeBetweenTrades := 300, maxTradeAmount := some 100 }

/-- Modelled from the spec: a Signal (spec 3): timestamp, direction, strength,
confidence, reference price and the indicator snapshot.  The purely
descriptive humanMessage is omitted (the spec marks it "not used
downstream"). -/
structure Signal where
  ts : ℤ
  direction : Direction
  strength : Strength
  confidence : ℚ
  price : ℚ
  emaShort : ℚ
  emaLong : ℚ
  rsi : ℚ
deriving DecidableEq

/-- Modelled from the spec: strength classification of a crossover (spec 4.2):
strong when RSI is beyond the threshold in the confirming direction, moderate
when within 10 points of it on the confirming side, weak otherwise. -/
def strengthOf (d : Direction) (rsi : ℚ) (cfg : StrategyConfig) : Strength :=
  match d with
  | Direction.buy =>
      if rsi ≤ cfg.rsiOversold then Strength.strong
      else if rsi ≤ cfg.rsiOversold + 10 then Strength.moderate
      else Strength.weak
  | Direction.sell =>
      if cfg.rsiOverbought ≤ rsi then Strength.strong
      else if cfg.rsiOverbought - 10 ≤ rsi then Strength.moderate
      else Strength.weak

/-- Modelled from the spec: confidence = base 50 for any crossover, +30 on a
strong RSI confirmation, +15 on a moderate one, plus a magnitude term
`100 · |emaShort − emaLong| / |emaLong|` capped at 20 points (the spec fixes
only "proportional ... capped contribution of 20 points"; the factor 100 is
this model's choice, and the division is guarded when emaLong = 0), clamped
to [0, 100]. -/
def confidenceOf (d : Direction) (c : IPoint) (cfg : StrategyConfig) : ℚ :=
  let confirm : ℚ :=
    match strengthOf d c.rsi cfg with
    | Strength.strong => 30
    | Strength.moderate => 15
    | Strength.weak => 0
  let magnitude : ℚ :=
    if c.emaLong = 0 then 0 else min 20 (100 * |c.emaShort - c.emaLong| / |c.emaLong|)
  clamp100 (50 + confirm + magnitude)

/-- Modelled from the spec: the Signal value assembled at a crossover. -/
def mkSignal (cfg : StrategyConfig) (d : Direction) (c : IPoint) (price : ℚ) : Signal :=
  { ts := c.ts, direction := d, strength := strengthOf d c.rsi cfg,
    confidence := confidenceOf d c cfg, price := price,
    emaShort := c.emaShort, emaLong := c.emaLong, rsi := c.rsi }

/-- Modelled from the spec: an open Position (spec 3), long-only. -/
structure Position where
  entryTs : ℤ
  entryPrice : ℚ
  size : ℚ
  stopLossPrice : ℚ
  takeProfitPrice : ℚ
deriving DecidableEq

/-- The action the risk gate returns on acceptance: open a new long Position,
or close the currently open one (a `sell` while long is an exit; the engine
is long-only). -/
inductive RiskAction where
  | enter (p : Position)
  | exitPos (p : Position)
deriving DecidableEq

/-- Modelled from the spec: the cooldown test of the risk gate; `none` for
`lastTradeTimestamp` means no trade has been accepted yet, so no cooldown
applies. -/
def cooldownBlocked (ts : ℤ) (cfg : StrategyConfig) : Option ℤ → Bool
  | some t => decide (ts - t < cfg.minTimeBetweenTrades)
  | none => false

/-- Modelled from the spec: the Risk Manager gate
`evaluate(signal, strategyConfig, lastTradeTimestamp, openPosition)` (spec
4.3), missing from src/ (the UI only disables its execute button below a
hard-coded confidence of 60).  Checks run in the spec's order: minimum
confidence, cooldown, then position state; an accepted entry is sized at
`tradeAmountPercent` of the balance capped by `maxTradeAmount`, with
stop-loss and take-profit prices attached. -/
def evaluate (sig : Signal) (cfg : StrategyConfig) (lastTradeTs : Option ℤ)
    (pos : Option Position) (balance : ℚ) : Option RiskAction :=
  if sig.confidence < cfg.minConfidence then none
  else if cooldownBlocked sig.ts cfg lastTradeTs then none
  else
    match sig.direction, pos with
    | Direction.buy, some _ => none
    | Direction.buy, none =>
        let raw := balance * cfg.tradeAmountPercent / 100
        let sz := match cfg.maxTradeAmount with
          | some m => min raw m
          | none => raw
        some (RiskAction.enter
          { entryTs := sig.ts, entryPrice := sig.price, size := sz,
            stopLossPrice := sig.price * (1 - cfg.stopLossPercent / 100),
            takeProfitPrice := sig.price * (1 + cfg.takeProfitPercent / 100) })
    | Direction.sell, some p => some (RiskAction.exitPos p)
    | Direction.sell, none => none

/-- Claim C8: a signal whose confidence is strictly below the configured
minConfidence is rejected by the risk gate — no trade action is returned. -/
theorem evaluate_rejects_low_confidence (sig : Signal) (cfg : StrategyConfig)
    (lastTradeTs : Option ℤ) (pos : Option Position) (balance : ℚ)
    (h : sig.confidence < cfg.minConfidence) :
    evaluate sig cfg lastTradeTs pos balance = none := by
  unfold evaluate
  rw [if_pos h]

/-- Witness for C8: a buy signal with confidence 50 against the default
minConfidence of 70 is rejected while flat with a 1000 balance. -/
theorem evaluate_rejects_low_confidence_witness :
    ({ ts := 0, direction := Direction.buy, strength := Strength.weak,
       confidence := 50, price := 43000, emaShort := 43200, emaLong := 42800,
       rsi := 50 } : Signal).confidence < defaultConfig.minConfidence ∧
    evaluate { ts := 0, direction := Direction.buy, strength := Strength.weak,
               confidence := 50, price := 43000, emaShort := 43200,
               emaLong := 42800, rsi := 50 } defaultConfig none none 1000 = none :=
  ⟨by norm_num [defaultConfig], evaluate_rejects_low_confidence _ _ _ _ _
    (by norm_num [defaultConfig])⟩

/-! ## Backtest Runner and Performance Analyzer (modelled from the spec) -/

/-- Modelled from the spec: a price Bar (spec 3).  The runner is missing from
src/ (`runBacktest` in BacktestForm.tsx fabricates a result from
`Math.random()` as an acknowledged placeholder). -/
structure Bar where
  ts : ℤ
  opn : ℚ
  hi : ℚ
  lo : ℚ
  cl : ℚ
  vol : ℚ
deriving DecidableEq

/-- Modelled from the spec: the error taxonomy of spec 7 (the members the
engine itself raises). -/
inductive EngineError where
  | invalidRange
  | insufficientData
  | invalidConfig
  | dataUnavailable
deriving DecidableEq

/-- Modelled from the spec: warm-up period = max(emaLongPeriod, rsiPeriod)
bars (spec 3). -/
def warmup (cfg : StrategyConfig) : ℕ := max cfg.emaLongPeriod cfg.rsiPeriod

/-- Modelled from the spec: the IndicatorPoint for bar `i`, aligning the
EMA series (first value at bar `period − 1`) and the RSI series (first value
at bar `rsiPeriod`) by bar index; the defaults 0/50 are only reachable for
degenerate configurations below warm-up. -/
def pointAt (bars : List Bar) (cfg : StrategyConfig) (i : ℕ) : IPoint :=
  { ts := ((bars.get? i).map Bar.ts).getD 0,
    emaShort := (computeEMA (bars.map Bar.cl) cfg.emaShortPeriod).getD
      (i + 1 - cfg.emaShortPeriod) 0,
    emaLong := (computeEMA (bars.map Bar.cl) cfg.emaLongPeriod).getD
      (i + 1 - cfg.emaLongPeriod) 0,
    rsi := (computeRSI (bars.map Bar.cl) cfg.rsiPeriod).getD (i - cfg.rsiPeriod) 50 }

/-- Modelled from the spec: the Signal Generator's output at bar `i` of the
backtest — a signal exactly when the two EMA series cross between bars `i−1`
and `i`, available only once warm-up is complete. -/
def sigAt (bars : List Bar) (cfg : StrategyConfig) (i : ℕ) : Option Signal :=
  if warmup cfg ≤ i ∧ i < bars.length ∧ 1 ≤ i then
    match detectCross (pointAt bars cfg (i - 1)) (pointAt bars cfg i) with
    | some d => some (mkSignal cfg d (pointAt bars cfg i) (((bars.get? i).map Bar.cl).getD 0))
    | none => none
  else none

inductive ExitReason where
  | bySignal
  | stopLoss
  | takeProfit
  | endOfData
deriving DecidableEq

/-- Modelled from the spec: a completed Trade (spec 3): entry fields plus
exit timestamp, price, reason and realized profit (absolute and percent). -/
structure Trade where
  entryTs : ℤ
  entryPrice : ℚ
  size : ℚ
  exitTs : ℤ
  exitPrice : ℚ
  reason : ExitReason
  profit : ℚ
  profitPercent : ℚ
deriving DecidableEq

/-- The Backtest Runner's per-instance state: balance, the at-most-one open
Position, the last accepted-trade timestamp, the trade ledger and the equity
curve. -/
structure BTState where
  balance : ℚ
  pos : Option Position
  lastTradeTs : Option ℤ
  trades : List Trade
  equity : List (ℤ × ℚ)
deriving DecidableEq

/-- Modelled from the spec: closing the open Position at `price`, realizing
`size · (price − entry) / entry` and appending the Trade to the ledger. -/
def closeTrade (st : BTState) (p : Position) (ts : ℤ) (price : ℚ)
    (r : ExitReason) : BTState :=
  let profit := if p.entryPrice = 0 then 0 else p.size * (price - p.entryPrice) / p.entryPrice
  { st with
    balance := st.balance + profit
    pos := none
    trades := st.trades ++
      [{ entryTs := p.entryTs, entryPrice := p.entryPrice, size := p.size,
         exitTs := ts, exitPrice := price, reason := r, profit := profit,
         profitPercent := if p.entryPrice = 0 then 0
           else (price - p.entryPrice) / p.entryPrice * 100 }] }

/-- Modelled from the spec: the per-bar procedure of the Backtest Runner
(spec 4.4): while IN_POSITION the stop-loss check (conservative: first) and
take-profit check take priority over new signals; otherwise the Signal
Generator's output goes through the Risk Manager; the equity curve records
the balance after every bar.  `lastTradeTs` advances only on a gate-accepted
action. -/
def procBar (bars : List Bar) (cfg : StrategyConfig) (st : BTState)
    (ib : ℕ × Bar) : BTState :=
  let i := ib.1
  let bar := ib.2
  let st1 :=
    match st.pos with
    | some p =>
        if bar.lo ≤ p.stopLossPrice then
          closeTrade st p bar.ts p.stopLossPrice ExitReason.stopLoss
        else if p.takeProfitPrice ≤ bar.hi then
          closeTrade st p bar.ts p.takeProfitPrice ExitReason.takeProfit
        else
          match sigAt bars cfg i with
          | some sig =>
              match evaluate sig cfg st.lastTradeTs st.pos st.balance with
              | some (RiskAction.exitPos p2) =>
                  { closeTrade st p2 bar.ts sig.price ExitReason.bySignal with
                    lastTradeTs := some sig.ts }
              | _ => st
          | none => st
    | none =>
        match sigAt bars cfg i with
        | some sig =>
            match evaluate sig cfg st.lastTradeTs st.pos st.balance with
            | some (RiskAction.enter p2) =>
                { st with pos := some p2, lastTradeTs := some sig.ts }
            | _ => st
        | none => st
  { st1 with equity := st1.equity ++ [(bar.ts, st1.balance)] }

def meanQ (l : List ℚ) : ℚ := if l.length = 0 then 0 else l.sum / l.length

def varianceQ (l : List ℚ) : ℚ :=
  if l.length = 0 then 0 else ((l.map (fun x => (x - meanQ l) ^ 2)).sum) / l.length

/-- Per-step returns of an equity curve, `(b[i+1] − b[i]) / b[i]` (guarded
division). -/
def perBarReturns (balances : List ℚ) : List ℚ :=
  List.zipWith (fun a b => if a = 0 then 0 else (b - a) / a) balances balances.tail

/-- Drawdowns of an equity curve against the running peak carried in `peak`:
`(b − peak') / peak' · 100` with `peak' = max peak b`. -/
def ddAux (peak : ℚ) : List ℚ → List ℚ
  | [] => []
  | b :: bs => ((b - max peak b) / max peak b * 100) :: ddAux (max peak b) bs

/-- The spec's drawdown series: entry `i` is
`(balance[i] − runningPeak[i]) / runningPeak[i] · 100` with
`runningPeak[i] = max(balance[0..i])` (spec 4.5). -/
def runningPeakDrawdowns : List ℚ → List ℚ
  | [] => []
  | b :: bs => ddAux b (b :: bs)

/-- Modelled from the spec: BacktestResult (spec 3/4.5).  The Sharpe ratio is
`mean(return) / stdDev(return)` annualized, 0 when the standard deviation is
0; since the square root leaves ℚ, the result stores the determining mean
and variance of the per-bar return series instead of the quotient. -/
structure BacktestResult where
  trades : List Trade
  equity : List (ℤ × ℚ)
  totalReturn : ℚ
  totalReturnPercent : ℚ
  totalTrades : ℕ
  winRate : ℚ
  maxDrawdownPercent : ℚ
  sharpeMeanReturn : ℚ
  sharpeReturnVariance : ℚ
deriving DecidableEq

def initialState (initialBalance : ℚ) : BTState :=
  { balance := initialBalance, pos := none, lastTradeTs := none, trades := [], equity := [] }

/-- Modelled from the spec: the Backtest Runner core (spec 4.4) and the
Performance Analyzer (spec 4.5): replay every bar through `procBar`,
force-close any open Position at the last bar's close with reason
`endOfData`, then derive the summary statistics from the equity curve and
trade ledger. -/
def runCore (bars : List Bar) (cfg : StrategyConfig) (initialBalance : ℚ) : BacktestResult :=
  let stRun := bars.enum.foldl (procBar bars cfg) (initialState initialBalance)
  let stFin :=
    match stRun.pos, bars.getLast? with
    | some p, some b => closeTrade stRun p b.ts b.cl ExitReason.endOfData
    | _, _ => stRun
  let balances := stFin.equity.map Prod.snd
  { trades := stFin.trades
    equity := stFin.equity
    totalReturn := stFin.balance - initialBalance
    totalReturnPercent := if initialBalance = 0 then 0
      else (stFin.balance - initialBalance) / initialBalance
    totalTrades := stFin.trades.length
    winRate := if stFin.trades.length = 0 then 0
      else ((stFin.trades.filter (fun t => decide (0 < t.profit))).length : ℚ) /
        stFin.trades.length
    maxDrawdownPercent := (jsMin (runningPeakDrawdowns balances)).getD 0
    sharpeMeanReturn := meanQ (perBarReturns balances)
    sharpeReturnVariance := varianceQ (perBarReturns balances) }

/-- Modelled from the spec: the Backtest Runner as seen by its caller, given
the ambient entropy stream `entropy` (the `Math.random()` sequence the mock
UI draws its fake results from).  The spec requires "deterministic,
replayable computation ... no hidden global entropy source", so the runner
never consults `entropy`. -/
def runBacktestSeeded (bars : List Bar) (cfg : StrategyConfig) (initialBalance : ℚ)
    (entropy : ℕ → ℚ) : BacktestResult :=
  runCore bars cfg initialBalance

/-- Modelled from the spec: the backtest invocation contract (spec 6/4.4):
validation of the date range and of the warm-up requirement happens before
any computation, aborting with no partial BacktestResult. -/
def runBacktest (startDate endDate : ℤ) (bars : List Bar) (cfg : StrategyConfig)
    (initialBalance : ℚ) : Except EngineError BacktestResult :=
  if endDate ≤ startDate then Except.error EngineError.invalidRange
  else if bars.length < warmup cfg then Except.error EngineError.insufficientData
  else Except.ok (runCore bars cfg initialBalance)

/-- Claim C1: backtest determinism — for a fixed (bars, StrategyConfig,
initialBalance) the Backtest Runner's output does not depend on the ambient
entropy stream: two runs, whatever `Math.random()` would have supplied,
return equal BacktestResult values (hence equal totalReturn,
totalReturnPercent, totalTrades, winRate, maxDrawdownPercent and the fields
determining the Sharpe ratio). -/
theorem runBacktest_deterministic (bars : List Bar) (cfg : StrategyConfig)
    (initialBalance : ℚ) (entropy1 entropy2 : ℕ → ℚ) :
    runBacktestSeeded bars cfg initialBalance entropy1 =
      runBacktestSeeded bars cfg initialBalance entropy2 := rfl

/-- Claim C2: a backtest invocation with startDate ≥ endDate fails with
InvalidRangeError — the result is the error, never an `ok` carrying a
BacktestResult. -/
theorem runBacktest_invalid_range (startDate endDate : ℤ) (bars : List Bar)
    (cfg : StrategyConfig) (initialBalance : ℚ) (h : endDate ≤ startDate) :
    runBacktest startDate endDate bars cfg initialBalance =
      Except.error EngineError.invalidRange := by
  unfold runBacktest
  rw [if_pos h]

/-- Witness for C2: a backtest over 5 bars with startDate = endDate = 0 fails
with InvalidRangeError. -/
theorem runBacktest_invalid_range_witness :
    (0 : ℤ) ≤ (0 : ℤ) ∧
    runBacktest 0 0
      (List.replicate 5 ({ ts := 0, opn := 1, hi := 1, lo := 1, cl := 1, vol := 0 } : Bar))
      defaultConfig 1000 = Except.error EngineError.invalidRange :=
  ⟨le_refl 0, runBacktest_invalid_range 0 0 _ defaultConfig 1000 (le_refl 0)⟩

/-! ## Source embeddings: SignalPanel (Dashboard) -/

/-- Confidence of a generated sample signal, SignalPanel.tsx line 55 and
part_000 line 99: `Math.round((Math.random() * 40 + 60) * 10) / 10`, with `r`
the `Math.random()` sample. -/
def spConfidence (r : ℚ) : ℚ := (jsRound ((r * 40 + 60) * 10) : ℚ) / 10

/-- The execute button's guard, SignalPanel.tsx line 238:
`disabled={currentSignal.confidence < 60}`. -/
def executeDisabled (confidence : ℚ) : Bool := decide (confidence < 60)

/-- Claim C9: every generated signal's confidence lies in [60, 100] (the
`Math.random()` sample lies in [0, 1)), so the `confidence < 60` execute
guard never fires on a generated signal. -/
theorem spConfidence_in_range (r : ℚ) (h0 : 0 ≤ r) (h1 : r < 1) :
    60 ≤ spConfidence r ∧ spConfidence r ≤ 100 ∧
    executeDisabled (spConfidence r) = false := by
  have hb : 60 ≤ spConfidence r ∧ spConfidence r ≤ 100 := by
    unfold spConfidence jsRound
    have hlow : (600 : ℤ) ≤ ⌊(r * 40 + 60) * 10 + 1/2⌋ := by
      apply Int.le_floor.mpr
      push_cast
      nlinarith
    have hhigh : ⌊(r * 40 + 60) * 10 + 1/2⌋ ≤ 1000 := by
      have h : ⌊(r * 40 + 60) * 10 + 1/2⌋ < 1001 := Int.floor_lt.mpr (by push_cast; nlinarith)
      omega
    constructor
    · rw [le_div_iff₀ (by norm_num)]
      calc (60 : ℚ) * 10 = ((600 : ℤ) : ℚ) := by norm_num
        _ ≤ _ := by exact_mod_cast hlow
    · rw [div_le_iff₀ (by norm_num)]
      calc ((⌊(r * 40 + 60) * 10 + 1/2⌋ : ℤ) : ℚ) ≤ ((1000 : ℤ) : ℚ) := by exact_mod_cast hhigh
        _ = 100 * 10 := by norm_num
  refine ⟨hb.1, hb.2, ?_⟩
  unfold executeDisabled
  simp only [decide_eq_false_iff_not, not_lt]
  exact hb.1

/-- Witness for C9 at the sample `r = 1/2`: the confidence is 80, inside
[60, 100], and the guard stays off. -/
theorem spConfidence_in_range_witness :
    0 ≤ (1/2 : ℚ) ∧ (1/2 : ℚ) < 1 ∧
    (60 ≤ spConfidence (1/2) ∧ spConfidence (1/2) ≤ 100 ∧
     executeDisabled (spConfidence (1/2)) = false) :=
  ⟨by norm_num, by norm_num, spConfidence_in_range (1/2) (by norm_num) (by norm_num)⟩

/-! ## Source embeddings: TradingChart real-time window (part_000) -/

/-- A chart data point (part_000 `ChartDataPoint`): the time label modelled
as ℤ, the numeric fields as ℚ. -/
structure CPoint where
  time : ℤ
  price : ℚ
  emaShort : ℚ
  emaLong : ℚ
  rsi : ℚ
  volume : ℚ
deriving DecidableEq

/-- JS `list.slice(-50)`: the last 50 elements (the whole list when it is
shorter). -/
def sliceLast50 (l : List CPoint) : List CPoint := l.drop (l.length - 50)

/-- The real-time tick of part_000 lines 129-154: push one new point (built
from the last point and the ambient randomness, abstracted here as the
parameter `p` since only the list shape is at stake), then
`return newData.slice(-50)`. -/
def chartTick (prev : List CPoint) (p : CPoint) : List CPoint := sliceLast50 (prev ++ [p])

theorem chartTick_length (l : List CPoint) (p : CPoint) :
    (chartTick l p).length = min (l.length + 1) 50 := by
  unfold chartTick sliceLast50
  rw [List.length_drop, List.length_append]
  simp only [List.length_singleton]
  omega

theorem foldl_chartTick_bounded :
    ∀ (ps : List CPoint) (prev : List CPoint), prev.length ≤ 50 →
      (ps.foldl chartTick prev).length ≤ 50 := by
  intro ps
  induction ps with
  | nil => intro prev h; simpa using h
  | cons q qs ih =>
    intro prev h
    rw [List.foldl_cons]
    apply ih
    rw [chartTick_length]
    omega

/-- Claim C10: starting from a series of at most 50 points, each real-time
tick appends exactly one point and keeps only the last 50 (its result has
length `min (n+1) 50` and equals the pushed list with its overflow dropped),
so the series length never exceeds 50 after any number of ticks. -/
theorem chartData_bounded (prev : List CPoint) (p : CPoint) (ps : List CPoint)
    (h : prev.length ≤ 50) :
    (chartTick prev p).length = min (prev.length + 1) 50 ∧
    chartTick prev p = (prev ++ [p]).drop (prev.length + 1 - 50) ∧
    (ps.foldl chartTick prev).length ≤ 50 := by
  refine ⟨chartTick_length prev p, ?_, foldl_chartTick_bounded ps prev h⟩
  unfold chartTick sliceLast50
  rw [List.length_append]
  simp only [List.length_singleton]

def cp0 : CPoint := { time := 0, price := 0, emaShort := 0, emaLong := 0, rsi := 0, volume := 0 }

/-- Witness for C10 at a full 50-point series: the tick keeps the length at
50 and two further ticks still leave at most 50 points. -/
theorem chartData_bounded_witness :
    (List.replicate 50 cp0).length ≤ 50 ∧
    ((chartTick (List.replicate 50 cp0) cp0).length =
       min ((List.replicate 50 cp0).length + 1) 50 ∧
     chartTick (List.replicate 50 cp0) cp0 =
       (List.replicate 50 cp0 ++ [cp0]).drop ((List.replicate 50 cp0).length + 1 - 50) ∧
     (([cp0, cp0] : List CPoint).foldl chartTick (List.replicate 50 cp0)).length ≤ 50) :=
  ⟨by simp, chartData_bounded (List.replicate 50 cp0) cp0 [cp0, cp0] (by simp)⟩

/-! ## Source embeddings: backtest results statistics (ResultsChart.tsx) -/

/-- A trade row of ResultsChart.tsx (its `Trade` interface); the timestamp
label is modelled as an ℤ index, `type` as `isBuy`. -/
structure RTrade where
  idx : ℤ
  isBuy : Bool
  price : ℚ
  amount : ℚ
  profit : ℚ
deriving DecidableEq

/-- The hard-coded `SAMPLE_TRADES` ledger of ResultsChart.tsx lines 32-40. -/
def SAMPLE_TRADES : List RTrade :=
  [ { idx := 0, isBuy := true,  price := 42500, amount := 23/1000, profit := 0 },
    { idx := 1, isBuy := false, price := 43200, amount := 23/1000, profit := 161/10 },
    { idx := 2, isBuy := true,  price := 43800, amount := 24/1000, profit := 0 },
    { idx := 3, isBuy := false, price := 43100, amount := 24/1000, profit := -168/10 },
    { idx := 4, isBuy := true,  price := 44200, amount := 22/1000, profit := 0 },
    { idx := 5, isBuy := false, price := 45100, amount := 22/1000, profit := 198/10 } ]

/-- `winningTrades` of ResultsChart.tsx line 72:
`SAMPLE_TRADES.filter(t => t.profit > 0).length`. -/
def winningCount (ts : List RTrade) : ℕ :=
  (ts.filter (fun t => decide (0 < t.profit))).length

/-- The win-rate computation of ResultsChart.tsx lines 71-73:
`winRate = (winningTrades / totalTrades) * 100`, with JS division (the 0/0 of
an empty ledger is NaN, modelled `none`). -/
def codeWinRate (ts : List RTrade) : Option ℚ :=
  (jsDiv (winningCount ts) ts.length).map (fun x => x * 100)

/-- Counterexample to claim C7 as stated: on the repository's own
SAMPLE_TRADES ledger (6 trades, 2 with positive profit) the code's winRate is
100/3 — a percentage — not the claimed plain quotient 1/3; and on an empty
ledger the 0/0 division yields NaN, not the claimed 0. -/
theorem codeWinRate_not_plain_ratio :
    codeWinRate SAMPLE_TRADES ≠
      some ((winningCount SAMPLE_TRADES : ℚ) / (SAMPLE_TRADES.length : ℚ)) ∧
    codeWinRate [] ≠ some 0 := by
  constructor
  · norm_num [codeWinRate, jsDiv, winningCount, SAMPLE_TRADES, List.filter]
  · simp [codeWinRate, jsDiv, winningCount]

/-- Amended claim C7: on a nonempty ledger, winRate equals the count of
trades with profit > 0 divided by the total count of trades, times 100 (a
percentage); on an empty ledger the code's 0/0 produces no number (NaN in
JS), not 0. -/
theorem codeWinRate_eq_percent (ts : List RTrade) (h : 0 < ts.length) :
    codeWinRate ts = some (((winningCount ts : ℚ) / (ts.length : ℚ)) * 100) ∧
    codeWinRate [] = none := by
  refine ⟨?_, rfl⟩
  have hne : ((ts.length : ℚ)) ≠ 0 := by
    exact_mod_cast Nat.pos_iff_ne_zero.mp h
  unfold codeWinRate jsDiv
  rw [if_neg hne]
  rfl

/-- Witness for the amended C7 at the SAMPLE_TRADES ledger: the code's
winRate is 2/6 · 100 = 100/3. -/
theorem codeWinRate_eq_percent_witness :
    0 < SAMPLE_TRADES.length ∧
    (codeWinRate SAMPLE_TRADES =
       some (((winningCount SAMPLE_TRADES : ℚ) / (SAMPLE_TRADES.length : ℚ)) * 100) ∧
     codeWinRate [] = none) :=
  ⟨by decide, codeWinRate_eq_percent SAMPLE_TRADES (by decide)⟩

/-- A performance point of ResultsChart.tsx (its `PerformanceData`): the
stored (rounded) balance and the drawdown; the date, trades and profitLoss
fields are not consulted by the statistics under study and are omitted. -/
structure PerfPoint where
  balance : ℚ
  drawdown : ℚ
deriving DecidableEq

/-- The loop body of `generatePerformanceData` (ResultsChart.tsx lines
42-63), with the `Math.random()`-derived daily returns abstracted as the
input list: the running balance accumulates `balance += dailyReturn` exactly,
the stored balance is `Math.round(balance * 100) / 100`, and the drawdown is
`balance < 1000 ? ((balance - 1000) / 1000) * 100 : 0` — measured against the
initial balance 1000. -/
def perfAux (b : ℚ) : List ℚ → List PerfPoint
  | [] => []
  | r :: rs =>
      { balance := (jsRound ((b + r) * 100) : ℚ) / 100,
        drawdown := if b + r < 1000 then (b + r - 1000) / 1000 * 100 else 0 } ::
      perfAux (b + r) rs

def generatePerformanceData (dailyReturns : List ℚ) : List PerfPoint :=
  perfAux 1000 dailyReturns

/-- The maxDrawdown statistic of ResultsChart.tsx line 74:
`Math.min(...performanceData.map(d => d.drawdown))`. -/
def codeMaxDrawdown (dailyReturns : List ℚ) : Option ℚ :=
  jsMin ((generatePerformanceData dailyReturns).map PerfPoint.drawdown)

/-- Counterexample to claim C6 as stated: for daily returns [200, −100] the
stored equity curve is [1200, 1100]; the claimed running-peak formula gives
−25/3 % at the second point, but the code, which measures drawdown against
the initial balance 1000 and stores 0 whenever the balance is above it,
returns 0. -/
theorem codeMaxDrawdown_not_running_peak :
    codeMaxDrawdown [200, -100] ≠
      jsMin (runningPeakDrawdowns
        ((generatePerformanceData [200, -100]).map PerfPoint.balance)) := by
  norm_num [codeMaxDrawdown, generatePerformanceData, perfAux, jsMin, jsRound,
    runningPeakDrawdowns, ddAux, Int.floor_intCast]

/-- Running balances of the performance loop: the initial balance plus the
accumulated daily returns, one entry per day. -/
def partialBalances (b : ℚ) : List ℚ → List ℚ
  | [] => []
  | r :: rs => (b + r) :: partialBalances (b + r) rs

/-- Drawdown against the fixed initial balance 1000. -/
def ddFromInitial (b : ℚ) : ℚ := if b < 1000 then (b - 1000) / 1000 * 100 else 0

theorem perfAux_drawdowns (rs : List ℚ) :
    ∀ b, (perfAux b rs).map PerfPoint.drawdown =
      (partialBalances b rs).map ddFromInitial := by
  induction rs with
  | nil => intro b; rfl
  | cons r rs ih =>
    intro b
    simp only [perfAux, partialBalances, List.map_cons, ddFromInitial, ih]

/-- Amended claim C6: maxDrawdown equals the minimum over the equity curve of
the drawdown measured against the fixed initial balance 1000 — 0 whenever the
running balance is at or above 1000, `(balance − 1000)/1000·100` otherwise —
not against the running peak (and there is no value for an empty curve). -/
theorem codeMaxDrawdown_eq_initial_based (dailyReturns : List ℚ) :
    codeMaxDrawdown dailyReturns =
      jsMin ((partialBalances 1000 dailyReturns).map ddFromInitial) := by
  unfold codeMaxDrawdown generatePerformanceData
  rw [perfAux_drawdowns]

end TradingEngine
